import Mathlib

/-!
Verification of the HexMachina hex-meshing pipeline.

The repository's driver (src/hexmachina/Notebook.ipynb) runs a four-stage
geometric pipeline over a shared `machina` object: tetrahedral mesh plus dual
adjacency, frame-field initialization and optimization, singular-graph
extraction, volume parametrization, and hex/isoline extraction.  The stage
modules themselves (machina.py, optimization.py, singularity.py,
parametrization.py, extraction.py) are not part of the sources at hand, so
their internals are modelled from the specification; the driver's call
sequence, arguments and captured output are embedded directly from the
notebook.

This file defines the shallow embedding (rational arithmetic in place of
floating point) and proves the properties claimed of the pipeline.
-/

namespace HexMachina

open Matrix

/-- Frames and matchings are 3×3 matrices over ℚ (the shallow embedding's
stand-in for floating-point 3×3 arrays). -/
abbrev M3 : Type := Matrix (Fin 3) (Fin 3) ℚ

/-- A 3-vector of rational coordinates. -/
abbrev Vec3 : Type := Fin 3 → ℚ

/-- A matrix is orthonormal when its columns are unit length and mutually
perpendicular, i.e. `Mᵀ * M = 1`. -/
def IsOrthonormal (M : M3) : Prop := Mᵀ * M = 1

/-- Explicit inverse of a 3×3 rational matrix via the adjugate. -/
def myInv (M : M3) : M3 := (M.det)⁻¹ • M.adjugate

theorem myInv_mul (M : M3) (h : M.det ≠ 0) : myInv M * M = 1 := by
  unfold myInv
  rw [smul_mul_assoc, Matrix.adjugate_mul, smul_smul, inv_mul_cancel₀ h, one_smul]

theorem mul_myInv (M : M3) (h : M.det ≠ 0) : M * myInv M = 1 := by
  unfold myInv
  rw [mul_smul_comm, Matrix.mul_adjugate, smul_smul, inv_mul_cancel₀ h, one_smul]

theorem myInv_transpose (M : M3) : (myInv M)ᵀ = myInv Mᵀ := by
  unfold myInv
  rw [Matrix.transpose_smul, Matrix.det_transpose, Matrix.adjugate_transpose]

/-- The skew-symmetric matrix of an axis-angle increment vector. -/
def skewOf (v : Vec3) : M3 :=
  !![0, -v 2, v 1; v 2, 0, -v 0; -v 1, v 0, 0]

theorem skewOf_transpose (v : Vec3) : (skewOf v)ᵀ = -skewOf v := by
  ext i j
  fin_cases i <;> fin_cases j <;> simp [skewOf]

theorem det_one_add_skewOf (v : Vec3) :
    (1 + skewOf v).det = 1 + v 0 ^ 2 + v 1 ^ 2 + v 2 ^ 2 := by
  simp [Matrix.det_fin_three, skewOf, Matrix.one_apply, Matrix.add_apply]
  ring

theorem det_one_add_skewOf_ne_zero (v : Vec3) : (1 + skewOf v).det ≠ 0 := by
  rw [det_one_add_skewOf]
  positivity

theorem skewOf_neg (v : Vec3) : skewOf (fun i => -v i) = -skewOf v := by
  ext i j
  fin_cases i <;> fin_cases j <;> simp [skewOf]

theorem det_one_sub_skewOf_ne_zero (v : Vec3) : (1 - skewOf v).det ≠ 0 := by
  have h : (1 : M3) - skewOf v = 1 + skewOf (fun i => -v i) := by
    rw [skewOf_neg, sub_eq_add_neg]
  rw [h]
  exact det_one_add_skewOf_ne_zero _

/-- Modelled from the spec: the optimizer's "exponential-map/axis-angle
increments ... project updated frames back onto the orthonormal rotation
manifold" (optimization.py is not among the sources).  The retraction onto
the rotation manifold is modelled by the Cayley transform of the
skew-symmetric increment, which lands exactly on the manifold and is exact
over ℚ. -/
def cayley (v : Vec3) : M3 := (1 - skewOf v) * myInv (1 + skewOf v)

theorem one_add_skew_transpose (v : Vec3) : ((1 : M3) + skewOf v)ᵀ = 1 - skewOf v := by
  rw [Matrix.transpose_add, Matrix.transpose_one, skewOf_transpose, sub_eq_add_neg]

theorem one_sub_skew_transpose (v : Vec3) : ((1 : M3) - skewOf v)ᵀ = 1 + skewOf v := by
  rw [Matrix.transpose_sub, Matrix.transpose_one, skewOf_transpose, sub_neg_eq_add]

theorem cayley_isOrthonormal (v : Vec3) : IsOrthonormal (cayley v) := by
  unfold IsOrthonormal cayley
  have hdp := det_one_add_skewOf_ne_zero v
  have hdm := det_one_sub_skewOf_ne_zero v
  have hcomm : ((1 : M3) + skewOf v) * (1 - skewOf v)
      = (1 - skewOf v) * (1 + skewOf v) := by
    noncomm_ring
  rw [Matrix.transpose_mul, myInv_transpose, one_add_skew_transpose,
    one_sub_skew_transpose]
  calc myInv (1 - skewOf v) * (1 + skewOf v) * ((1 - skewOf v) * myInv (1 + skewOf v))
      = myInv (1 - skewOf v) * ((1 + skewOf v) * (1 - skewOf v)) * myInv (1 + skewOf v) := by
        rw [mul_assoc, mul_assoc, mul_assoc]
    _ = myInv (1 - skewOf v) * ((1 - skewOf v) * (1 + skewOf v)) * myInv (1 + skewOf v) := by
        rw [hcomm]
    _ = (myInv (1 - skewOf v) * (1 - skewOf v)) * ((1 + skewOf v) * myInv (1 + skewOf v)) := by
        rw [mul_assoc, mul_assoc, mul_assoc]
    _ = 1 := by rw [myInv_mul _ hdm, mul_myInv _ hdp, one_mul]

theorem isOrthonormal_mul {A B : M3} (hA : IsOrthonormal A) (hB : IsOrthonormal B) :
    IsOrthonormal (A * B) := by
  unfold IsOrthonormal at *
  rw [Matrix.transpose_mul, mul_assoc, ← mul_assoc Aᵀ, hA, one_mul, hB]

theorem isOrthonormal_one : IsOrthonormal (1 : M3) := by
  unfold IsOrthonormal
  rw [Matrix.transpose_one, one_mul]

/-- Modelled from the spec: the 24 proper rotations of the cube ("chiral cube
symmetries"), the codomain of every dual-face matching.  Listed explicitly as
signed permutation matrices of determinant 1 (the code's modules holding this
table are not among the sources). -/
def cube24L : List M3 :=
  [!![1, 0, 0; 0, 1, 0; 0, 0, 1],
   !![1, 0, 0; 0, -1, 0; 0, 0, -1],
   !![-1, 0, 0; 0, 1, 0; 0, 0, -1],
   !![-1, 0, 0; 0, -1, 0; 0, 0, 1],
   !![1, 0, 0; 0, 0, 1; 0, -1, 0],
   !![1, 0, 0; 0, 0, -1; 0, 1, 0],
   !![-1, 0, 0; 0, 0, 1; 0, 1, 0],
   !![-1, 0, 0; 0, 0, -1; 0, -1, 0],
   !![0, 1, 0; 1, 0, 0; 0, 0, -1],
   !![0, 1, 0; -1, 0, 0; 0, 0, 1],
   !![0, -1, 0; 1, 0, 0; 0, 0, 1],
   !![0, -1, 0; -1, 0, 0; 0, 0, -1],
   !![0, 1, 0; 0, 0, 1; 1, 0, 0],
   !![0, 1, 0; 0, 0, -1; -1, 0, 0],
   !![0, -1, 0; 0, 0, 1; -1, 0, 0],
   !![0, -1, 0; 0, 0, -1; 1, 0, 0],
   !![0, 0, 1; 1, 0, 0; 0, 1, 0],
   !![0, 0, 1; -1, 0, 0; 0, -1, 0],
   !![0, 0, -1; 1, 0, 0; 0, -1, 0],
   !![0, 0, -1; -1, 0, 0; 0, 1, 0],
   !![0, 0, 1; 0, 1, 0; -1, 0, 0],
   !![0, 0, 1; 0, -1, 0; 1, 0, 0],
   !![0, 0, -1; 0, 1, 0; 1, 0, 0],
   !![0, 0, -1; 0, -1, 0; -1, 0, 0]]

theorem transpose_fin_three (a b c d e f g h i : ℚ) :
    (!![a, b, c; d, e, f; g, h, i] : M3)ᵀ = !![a, d, g; b, e, h; c, f, i] := by
  ext x y
  fin_cases x <;> fin_cases y <;> rfl

theorem one_mem_cube24L : (1 : M3) ∈ cube24L := by
  rw [cube24L, Matrix.one_fin_three]
  exact List.mem_cons_self _ _

theorem cube24L_orthonormal : ∀ g ∈ cube24L, IsOrthonormal g := by
  intro g hg
  unfold IsOrthonormal
  fin_cases hg <;>
    · rw [transpose_fin_three, Matrix.mul_fin_three, Matrix.one_fin_three]
      norm_num

/-- Squared Frobenius distance to zero; the embedding's measure of the
mismatch between two frames (the squared angular mismatch of the spec, in
its chordal form). -/
def frobSq (M : M3) : ℚ := ∑ i, ∑ j, (M i j) ^ 2

/-- Mismatch between frame `Fi` and frame `Fj` transported through the cube
symmetry `g`. -/
def matchScore (Fi Fj g : M3) : ℚ := frobSq (Fi - g * Fj)

/-- Modelled from the spec: "For every dual face, compute the matching: the
rotation, restricted to the 24 symmetries of the cube, minimizing angular
distance between the two adjacent tets' frames" (the module computing it is
not among the sources).  A left fold keeps the best candidate seen. -/
def bestMatching (Fi Fj : M3) : M3 :=
  cube24L.foldl (fun b g => if matchScore Fi Fj g < matchScore Fi Fj b then g else b) 1

theorem foldl_choice_mem {α : Type} (score : α → ℚ) (l : List α) (a : α) :
    l.foldl (fun b g => if score g < score b then g else b) a = a ∨
      l.foldl (fun b g => if score g < score b then g else b) a ∈ l := by
  induction l generalizing a with
  | nil => left; rfl
  | cons x xs ih =>
      simp only [List.foldl_cons]
      rcases ih (if score x < score a then x else a) with h | h
      · by_cases hc : score x < score a
        · right
          rw [h, if_pos hc]
          exact List.mem_cons_self _ _
        · left
          rw [h, if_neg hc]
      · right
        exact List.mem_cons_of_mem _ h

theorem foldl_choice_le {α : Type} (score : α → ℚ) (l : List α) (a : α) :
    score (l.foldl (fun b g => if score g < score b then g else b) a) ≤ score a ∧
      ∀ g ∈ l, score (l.foldl (fun b g => if score g < score b then g else b) a) ≤ score g := by
  induction l generalizing a with
  | nil => exact ⟨le_refl _, by intro g hg; cases hg⟩
  | cons x xs ih =>
      simp only [List.foldl_cons]
      obtain ⟨h1, h2⟩ := ih (if score x < score a then x else a)
      have ha : score (if score x < score a then x else a) ≤ score a := by
        by_cases hc : score x < score a
        · rw [if_pos hc]; exact le_of_lt hc
        · rw [if_neg hc]
      have hx : score (if score x < score a then x else a) ≤ score x := by
        by_cases hc : score x < score a
        · rw [if_pos hc]
        · rw [if_neg hc]; exact le_of_not_lt hc
      refine ⟨le_trans h1 ha, ?_⟩
      intro g hg
      rcases List.mem_cons.mp hg with rfl | hg
      · exact le_trans h1 hx
      · exact h2 g hg

theorem bestMatching_mem (Fi Fj : M3) : bestMatching Fi Fj ∈ cube24L := by
  rcases foldl_choice_mem (matchScore Fi Fj) cube24L 1 with h | h
  · rw [bestMatching, h]
    exact one_mem_cube24L
  · exact h

theorem bestMatching_isOrthonormal (Fi Fj : M3) : IsOrthonormal (bestMatching Fi Fj) :=
  cube24L_orthonormal _ (bestMatching_mem Fi Fj)

theorem bestMatching_minimizes (Fi Fj : M3) :
    ∀ g ∈ cube24L, matchScore Fi Fj (bestMatching Fi Fj) ≤ matchScore Fi Fj g :=
  (foldl_choice_le (matchScore Fi Fj) cube24L 1).2

/-! ## Tetrahedral mesh and dual adjacency

Modelled from the spec (machina.py is not among the sources): the tet mesh
holds vertices and tetrahedra; `compute_dual` precomputes the tet-tet
adjacency through shared faces and, per mesh edge, the tets around it. -/

/-- A triangulated input surface (the external tetrahedralizer's input). -/
structure TriMesh where
  verts : List Vec3
  faces : List (ℕ × ℕ × ℕ)

/-- A tetrahedron is four vertex references. -/
abbrev Tet : Type := ℕ × ℕ × ℕ × ℕ

/-- A tetrahedral mesh: vertex positions and tetrahedra. -/
structure TetMesh where
  verts : List Vec3
  tets : List Tet

/-- The four vertex references of a tetrahedron. -/
def tetVertList (t : Tet) : List ℕ := [t.1, t.2.1, t.2.2.1, t.2.2.2]

/-- Number of vertices shared by two tets; 3 shared vertices means a shared
face. -/
def sharedVertCount (t1 t2 : Tet) : ℕ :=
  ((tetVertList t1).filter (fun v => v ∈ tetVertList t2)).length

/-- Two tets are adjacent (share a dual face) when they share 3 vertices. -/
def areAdjacent (t1 t2 : Tet) : Bool := 3 ≤ sharedVertCount t1 t2

/-- Modelled from the spec: the dual faces, as ordered pairs of indices of
adjacent tets. -/
def dualFacePairs (tm : TetMesh) : List (ℕ × ℕ) :=
  (List.range tm.tets.length).flatMap fun i =>
    ((List.range tm.tets.length).filter fun j =>
      decide (i < j) && areAdjacent (tm.tets.getD i (0, 0, 0, 0)) (tm.tets.getD j (0, 0, 0, 0))).map
      fun j => (i, j)

/-- Normalized (sorted) edge key. -/
def edgeKey (a b : ℕ) : ℕ × ℕ := if a ≤ b then (a, b) else (b, a)

/-- The six edges of a tetrahedron, normalized. -/
def tetEdges (t : Tet) : List (ℕ × ℕ) :=
  [edgeKey t.1 t.2.1, edgeKey t.1 t.2.2.1, edgeKey t.1 t.2.2.2,
   edgeKey t.2.1 t.2.2.1, edgeKey t.2.1 t.2.2.2, edgeKey t.2.2.1 t.2.2.2]

/-- All mesh edges, deduplicated. -/
def meshEdges (tm : TetMesh) : List (ℕ × ℕ) :=
  (tm.tets.flatMap tetEdges).dedup

/-- Sort three vertex references. -/
def sort3 (a b c : ℕ) : List ℕ :=
  if a ≤ b then
    if b ≤ c then [a, b, c] else if a ≤ c then [a, c, b] else [c, a, b]
  else
    if a ≤ c then [b, a, c] else if b ≤ c then [b, c, a] else [c, b, a]

/-- The four faces of a tetrahedron, as sorted vertex triples. -/
def tetFaces (t : Tet) : List (List ℕ) :=
  [sort3 t.1 t.2.1 t.2.2.1, sort3 t.1 t.2.1 t.2.2.2,
   sort3 t.1 t.2.2.1 t.2.2.2, sort3 t.2.1 t.2.2.1 t.2.2.2]

/-- A face is on the boundary surface when exactly one tet has it. -/
def boundaryFaces (tm : TetMesh) : List (List ℕ) :=
  ((tm.tets.flatMap tetFaces).dedup).filter fun f =>
    ((tm.tets.flatMap tetFaces).filter (fun g => g = f)).length = 1

/-- An edge is a boundary edge when some boundary face contains both its
endpoints. -/
def isBoundaryEdge (tm : TetMesh) (e : ℕ × ℕ) : Bool :=
  (boundaryFaces tm).any fun f => e.1 ∈ f && e.2 ∈ f

/-- A tet is a boundary tet when one of its faces is a boundary face. -/
def isBoundaryTet (tm : TetMesh) (i : ℕ) : Bool :=
  (tetFaces (tm.tets.getD i (0, 0, 0, 0))).any fun f => f ∈ boundaryFaces tm

/-- Indices of the tets around a mesh edge (its tet cycle, in list order). -/
def edgeTets (tm : TetMesh) (e : ℕ × ℕ) : List ℕ :=
  (List.range tm.tets.length).filter fun i =>
    e.1 ∈ tetVertList (tm.tets.getD i (0, 0, 0, 0)) &&
      e.2 ∈ tetVertList (tm.tets.getD i (0, 0, 0, 0))

/-! ## Dual faces with matchings, and the singularity classifier

Modelled from the spec (singularity.py is not among the sources): each dual
face stores the matching aligning the two adjacent tets' frames; for each
mesh edge the classifier walks the cyclic tet sequence around the edge,
composing consecutive dual-face matchings, and the edge is singular iff the
composition is not the identity. -/

/-- A dual face: the pair of adjacent tet indices plus the stored matching
(one of the 24 chiral cube symmetries). -/
structure DualFace where
  tets : ℕ × ℕ
  matching : M3

/-- The stored matching between tets `a` and `b`, oriented from `b` to `a`;
reversed orientation uses the transpose (the inverse, for a rotation). -/
def matchingOf (dfs : List DualFace) (a b : ℕ) : M3 :=
  match dfs.find? fun df =>
    (df.tets.1 = a && df.tets.2 = b) || (df.tets.1 = b && df.tets.2 = a) with
  | some df => if df.tets.1 = a then df.matching else df.matchingᵀ
  | none => 1

/-- Consecutive pairs around a cyclic sequence. -/
def cyclePairs : List ℕ → List (ℕ × ℕ)
  | [] => []
  | t :: ts => (t :: ts).zip (ts ++ [t])

/-- The consecutive dual-face matchings around an edge's tet cycle. -/
def edgeMatchings (dfs : List DualFace) (cycle : List ℕ) : List M3 :=
  (cyclePairs cycle).map fun p => matchingOf dfs p.1 p.2

/-- Composition of a sequence of matchings, as the classifier computes it:
a left fold of matrix products starting from the identity. -/
def composeMatchings (ms : List M3) : M3 := ms.foldl (· * ·) 1

theorem composeMatchings_eq_prod (ms : List M3) : composeMatchings ms = ms.prod := by
  rw [composeMatchings, List.prod_eq_foldl]

/-- The classifier's singularity test for one edge. -/
def isSingularEdge (tm : TetMesh) (dfs : List DualFace) (e : ℕ × ℕ) : Bool :=
  decide (composeMatchings (edgeMatchings dfs (edgeTets tm e)) ≠ 1)

/-- The per-edge singularity index, derived from the specific non-identity
cube symmetry obtained.  The spec leaves the exact classification convention
open (§9); the model uses the matrix trace, which separates the rotation
classes of the 24 cube symmetries by angle. -/
def singularityIndex (tm : TetMesh) (dfs : List DualFace) (e : ℕ × ℕ) : ℚ :=
  Matrix.trace (composeMatchings (edgeMatchings dfs (edgeTets tm e)))

/-- Degree of a vertex in an edge list. -/
def degreeIn (es : List (ℕ × ℕ)) (v : ℕ) : ℕ :=
  (es.filter fun e => e.1 = v || e.2 = v).length

/-- The singular graph output: singular edges, their per-edge indices, and
the singular vertices. -/
structure SingOutput where
  edges : List (ℕ × ℕ)
  indices : List ((ℕ × ℕ) × ℚ)
  vertices : List ℕ
deriving Repr

/-- Modelled from the spec: singularity extraction (singularity.py is not
among the sources).  Interior mesh edges are classified by composing the
dual-face matchings around their tet cycle (singular iff the composition is
not the identity); boundary edges are measured against the identity extended
by the boundary alignment, modelled here by the same composition test over
the open cycle.  Endpoints of singular edges of degree ≠ 2 in the singular
subgraph, or on the mesh boundary, become singular vertices. -/
def singular_graph (tm : TetMesh) (dfs : List DualFace) : SingOutput :=
  let sing := (meshEdges tm).filter fun e => isSingularEdge tm dfs e
  { edges := sing
    indices := sing.map fun e => (e, singularityIndex tm dfs e)
    vertices := ((sing.flatMap fun e => [e.1, e.2]).dedup).filter fun v =>
      decide (degreeIn sing v ≠ 2) ||
        (boundaryFaces tm).any fun f => v ∈ f }

/-! ## Frame field: initialization and optimization

Modelled from the spec (optimization.py and the frame-field part of
machina.py are not among the sources): one orthonormal frame per tet;
boundary tets get the externally supplied normal/curvature-aligned rotation;
interior tets are initialized by propagating from an already-initialized
neighbor; optimization is a line-search method whose outer iteration accepts
a candidate frame set only when the global smoothness energy does not
increase (a failed line search retains the previous frames). -/

/-- One frame per tetrahedron, parallel to the tet list. -/
abbrev Frames : Type := List M3

/-- The frame of tet `t` (identity for an out-of-range index). -/
def frameAt (F : Frames) (t : ℕ) : M3 := F.getD t 1

/-- Dual faces with matchings recomputed from the current frames (matchings
are recomputed every outer iteration). -/
def computeMatchings (dfPairs : List (ℕ × ℕ)) (F : Frames) : List DualFace :=
  dfPairs.map fun p => ⟨p, bestMatching (frameAt F p.1) (frameAt F p.2)⟩

/-- Global smoothness energy: the sum over dual faces of the squared
mismatch between each tet's frame and its neighbor's frame transported
through the (freshly recomputed, i.e. minimizing) matching. -/
def energy (dfPairs : List (ℕ × ℕ)) (F : Frames) : ℚ :=
  (dfPairs.map fun p =>
    matchScore (frameAt F p.1) (frameAt F p.2)
      (bestMatching (frameAt F p.1) (frameAt F p.2))).sum

/-- The line-search candidate: every tet's frame rotated by the Cayley
retraction of the quasi-Newton increment `dir F t`, hence staying exactly on
the rotation manifold. -/
def ffCandidate (dir : Frames → ℕ → Vec3) (F : Frames) : Frames :=
  (List.range F.length).map fun t => cayley (dir F t) * frameAt F t

/-- One outer iteration of frame-field optimization: the candidate is
accepted only when it does not increase the smoothness energy; otherwise
the previous frame set is retained. -/
def ffStep (dfPairs : List (ℕ × ℕ)) (dir : Frames → ℕ → Vec3) (F : Frames) : Frames :=
  let F' := ffCandidate dir F
  if energy dfPairs F' ≤ energy dfPairs F then F' else F

/-- The frame set after `k` outer iterations. -/
def ffIter (dfPairs : List (ℕ × ℕ)) (dir : Frames → ℕ → Vec3) : ℕ → Frames → Frames
  | 0, F => F
  | k + 1, F => ffStep dfPairs dir (ffIter dfPairs dir k F)

/-- The optimizer stage: iterate until the energy decrease falls below the
tolerance, or the iteration budget runs out; the boolean records
convergence (`false` = budget exhausted, best-effort frames returned). -/
def ffSolve (dfPairs : List (ℕ × ℕ)) (dir : Frames → ℕ → Vec3) (tol : ℚ) :
    ℕ → Frames → Frames × Bool
  | 0, F => (F, false)
  | k + 1, F =>
      let F' := ffStep dfPairs dir F
      if energy dfPairs F - energy dfPairs F' < tol then (F', true)
      else ffSolve dfPairs dir tol k F'

/-- Index of the already-initialized neighbor a frame is propagated from
(the breadth-first order of the spec is modelled by index order). -/
def initParent (tm : TetMesh) (i : ℕ) : Option ℕ :=
  ((List.range i).filter fun j =>
    areAdjacent (tm.tets.getD i (0, 0, 0, 0)) (tm.tets.getD j (0, 0, 0, 0))).head?

/-- Modelled from the spec: frame-field initialization.  A boundary tet is
pinned to the externally supplied normal/curvature-aligned rotation
`attr i`; an interior tet takes the matching-corrected average of its
already-initialized neighbors, modelled here over the single propagation
neighbor (where that average reduces to the neighbor's frame). -/
def frameInitAux (tm : TetMesh) (attr : ℕ → M3) : ℕ → ℕ → M3
  | 0, i => attr i
  | fuel + 1, i =>
      if isBoundaryTet tm i then attr i
      else
        match initParent tm i with
        | none => attr i
        | some j => frameInitAux tm attr fuel j

/-- The initial boundary-aligned frame field. -/
def init_framefield (tm : TetMesh) (attr : ℕ → M3) : Frames :=
  (List.range tm.tets.length).map fun i => frameInitAux tm attr i i

/-- The optimizer stage as the driver invokes it. -/
def optimize_framefield (tm : TetMesh) (dir : Frames → ℕ → Vec3) (tol : ℚ) (cap : ℕ)
    (F : Frames) : Frames × Bool :=
  ffSolve (dualFacePairs tm) dir tol cap F

/-- All frames of a frame set are orthonormal (out-of-range defaults to the
identity, which is). -/
def AllOrthonormal (F : Frames) : Prop := ∀ t, IsOrthonormal (frameAt F t)

theorem getD_range_map (f : ℕ → M3) (n t : ℕ) (d : M3) :
    ((List.range n).map f).getD t d = if t < n then f t else d := by
  by_cases h : t < n
  · rw [if_pos h, List.getD_eq_getElem _ _ (by simpa using h)]
    simp
  · rw [if_neg h, List.getD_eq_default _ _ (by simpa using h)]

theorem ffCandidate_allOrthonormal {F : Frames} (dir : Frames → ℕ → Vec3)
    (hF : AllOrthonormal F) : AllOrthonormal (ffCandidate dir F) := by
  intro t
  unfold ffCandidate frameAt
  rw [getD_range_map]
  by_cases h : t < F.length
  · rw [if_pos h]
    exact isOrthonormal_mul (cayley_isOrthonormal _) (hF t)
  · rw [if_neg h]
    exact isOrthonormal_one

theorem ffStep_allOrthonormal {dfPairs : List (ℕ × ℕ)} {F : Frames}
    (dir : Frames → ℕ → Vec3) (hF : AllOrthonormal F) :
    AllOrthonormal (ffStep dfPairs dir F) := by
  unfold ffStep
  by_cases h : energy dfPairs (ffCandidate dir F) ≤ energy dfPairs F
  · rw [if_pos h]
    exact ffCandidate_allOrthonormal dir hF
  · rw [if_neg h]
    exact hF

theorem ffIter_allOrthonormal {dfPairs : List (ℕ × ℕ)} {F : Frames}
    (dir : Frames → ℕ → Vec3) (hF : AllOrthonormal F) (k : ℕ) :
    AllOrthonormal (ffIter dfPairs dir k F) := by
  induction k with
  | zero => exact hF
  | succ k ih => exact ffStep_allOrthonormal dir ih

theorem ffSolve_allOrthonormal {dfPairs : List (ℕ × ℕ)} (dir : Frames → ℕ → Vec3)
    (tol : ℚ) (cap : ℕ) :
    ∀ F : Frames, AllOrthonormal F → AllOrthonormal (ffSolve dfPairs dir tol cap F).1 := by
  induction cap with
  | zero => intro F hF; exact hF
  | succ k ih =>
      intro F hF
      unfold ffSolve
      by_cases h : energy dfPairs F - energy dfPairs (ffStep dfPairs dir F) < tol
      · rw [if_pos h]
        exact ffStep_allOrthonormal dir hF
      · rw [if_neg h]
        exact ih _ (ffStep_allOrthonormal dir hF)

theorem frameInitAux_isOrthonormal (tm : TetMesh) (attr : ℕ → M3)
    (hattr : ∀ i, IsOrthonormal (attr i)) :
    ∀ fuel i, IsOrthonormal (frameInitAux tm attr fuel i) := by
  intro fuel
  induction fuel with
  | zero => intro i; exact hattr i
  | succ f ih =>
      intro i
      unfold frameInitAux
      by_cases hb : isBoundaryTet tm i
      · rw [if_pos hb]
        exact hattr i
      · rw [if_neg hb]
        cases initParent tm i with
        | none => exact hattr i
        | some j => exact ih j

theorem init_framefield_allOrthonormal (tm : TetMesh) (attr : ℕ → M3)
    (hattr : ∀ i, IsOrthonormal (attr i)) :
    AllOrthonormal (init_framefield tm attr) := by
  intro t
  unfold init_framefield frameAt
  rw [getD_range_map]
  by_cases h : t < tm.tets.length
  · rw [if_pos h]
    exact frameInitAux_isOrthonormal tm attr hattr t t
  · rw [if_neg h]
    exact isOrthonormal_one

theorem energy_ffStep_le (dfPairs : List (ℕ × ℕ)) (dir : Frames → ℕ → Vec3) (F : Frames) :
    energy dfPairs (ffStep dfPairs dir F) ≤ energy dfPairs F := by
  unfold ffStep
  by_cases h : energy dfPairs (ffCandidate dir F) ≤ energy dfPairs F
  · rwa [if_pos h]
  · rw [if_neg h]

/-! ## Volume parametrization

Modelled from the spec (parametrization.py is not among the sources): a
per-tet-corner (u,v,w) map is obtained by an iterative solve (Conjugate
Gradient on the normal equations) that drives each tet's parametric jacobian
toward its frame-aligned target scaled by the grid-scale parameter, with the
singular vertices imposed as hard constraints; the solve stops when the
residual falls below the tolerance or the iteration cap is reached, and the
boolean records convergence. -/

/-- Per (tet, vertex-of-tet) parametric coordinates. -/
abbrev UVWMap : Type := List (Fin 4 → Vec3)

/-- Iterate a solver step `k` times. -/
def cgIterate {X : Type} (step : X → X) : ℕ → X → X
  | 0, x => x
  | k + 1, x => cgIterate step k (step x)

/-- Iterative solve: stop when the residual falls below the tolerance
(converged, `true`) or when the iteration cap runs out (best-effort value,
tagged unconverged, `false`). -/
def cgSolve {X : Type} (step : X → X) (res : X → ℚ) (tol : ℚ) : ℕ → X → X × Bool
  | 0, x => (x, false)
  | k + 1, x => if res x < tol then (x, true) else cgSolve step res tol k (step x)

/-- The frame-aligned target value for corner `c` of tet `t`: corner 0 at the
origin, corner `c+1` at `scale` times column `c` of the tet's frame. -/
def uvwTarget (F : Frames) (scale : ℚ) (t : ℕ) : Fin 4 → Vec3 :=
  fun c => Fin.cases (fun _ => 0) (fun c0 j => scale * frameAt F t j c0) c

/-- One relaxation step of the modelled solve: corners at singular vertices
are pinned to their target (the hard constraint); other corners move halfway
toward it. -/
def pStep (tm : TetMesh) (F : Frames) (scale : ℚ) (sv : List ℕ) (x : UVWMap) : UVWMap :=
  (List.range x.length).map fun t => fun c j =>
    if (tetVertList (tm.tets.getD t (0, 0, 0, 0))).getD c.val 0 ∈ sv then
      uvwTarget F scale t c j
    else ((x.getD t fun _ _ => 0) c j + uvwTarget F scale t c j) / 2

/-- Residual of the modelled normal-equations system: total squared
deviation of the map from the frame-aligned targets. -/
def pRes (F : Frames) (scale : ℚ) (x : UVWMap) : ℚ :=
  ((List.range x.length).map fun t =>
    ∑ c : Fin 4, ∑ j : Fin 3, ((x.getD t fun _ _ => 0) c j - uvwTarget F scale t c j) ^ 2).sum

/-- The all-zero initial map. -/
def initUVW (tm : TetMesh) : UVWMap := tm.tets.map fun _ _ _ => 0

/-- The parametrization stage as the driver invokes it: it receives the full
singular-graph output `sg` (through the machina object) and the
singular-vertex list `sv` (the explicit argument), plus the grid-scale
parameter. -/
def parametrize_volume (tm : TetMesh) (F : Frames) (sg : SingOutput) (sv : List ℕ)
    (scale tol : ℚ) (cap : ℕ) : UVWMap × Bool :=
  cgSolve (pStep tm F scale (sg.vertices ++ sv)) (pRes F scale) tol cap (initUVW tm)

/-! ## Hex extraction

Modelled from the spec (extraction.py is not among the sources): candidate
hex cells are assembled from the points where the parametrization meets an
integer grid corner in all three coordinates; a candidate is emitted only
when its 8 corners are distinct, its 6 quad faces are consistently
outward-oriented and its volume is strictly positive — otherwise it is
dropped rather than emitted malformed. -/

/-- A hex cell: 8 ordered vertex positions (corner `k` carries the binary
pattern `(k&1, k>>1&1, k>>2&1)` of the unit cube). -/
abbrev HexCell : Type := Fin 8 → Vec3

def vsub (a b : Vec3) : Vec3 := fun i => a i - b i

def vcross (a b : Vec3) : Vec3 :=
  ![a 1 * b 2 - a 2 * b 1, a 2 * b 0 - a 0 * b 2, a 0 * b 1 - a 1 * b 0]

def vdot (a b : Vec3) : ℚ := a 0 * b 0 + a 1 * b 1 + a 2 * b 2

/-- Scalar triple product of three edge vectors. -/
def triple (a b c : Vec3) : ℚ := vdot a (vcross b c)

/-- The six quad faces of a hex cell, listed with outward orientation. -/
def hexFaces : List (Fin 8 × Fin 8 × Fin 8 × Fin 8) :=
  [(0, 2, 3, 1), (4, 5, 7, 6), (0, 1, 5, 4), (2, 6, 7, 3), (0, 4, 6, 2), (1, 3, 7, 5)]

/-- Centroid of the 8 corners. -/
def hexCenter (h : HexCell) : Vec3 := fun j => (∑ k : Fin 8, h k j) / 8

/-- Signed volume of a hex cell, via the standard decomposition into six
tetrahedra along the main diagonal 0–7. -/
def hexVolume (h : HexCell) : ℚ :=
  (triple (vsub (h 1) (h 0)) (vsub (h 3) (h 0)) (vsub (h 7) (h 0)) +
    triple (vsub (h 3) (h 0)) (vsub (h 2) (h 0)) (vsub (h 7) (h 0)) +
    triple (vsub (h 2) (h 0)) (vsub (h 6) (h 0)) (vsub (h 7) (h 0)) +
    triple (vsub (h 6) (h 0)) (vsub (h 4) (h 0)) (vsub (h 7) (h 0)) +
    triple (vsub (h 4) (h 0)) (vsub (h 5) (h 0)) (vsub (h 7) (h 0)) +
    triple (vsub (h 5) (h 0)) (vsub (h 1) (h 0)) (vsub (h 7) (h 0))) / 6

/-- A face quad is outward-oriented when the cross product of its diagonals
points away from the cell centroid. -/
def faceOutward (h : HexCell) (f : Fin 8 × Fin 8 × Fin 8 × Fin 8) : Prop :=
  0 < vdot (vcross (vsub (h f.2.2.1) (h f.1)) (vsub (h f.2.2.2) (h f.2.1)))
      (vsub (fun j => (h f.1 j + h f.2.1 j + h f.2.2.1 j + h f.2.2.2 j) / 4) (hexCenter h))

instance (h : HexCell) (f : Fin 8 × Fin 8 × Fin 8 × Fin 8) : Decidable (faceOutward h f) := by
  unfold faceOutward
  infer_instance

/-- The emission filter: 8 distinct corners, 6 outward-oriented quad faces,
strictly positive volume. -/
def hexValid (h : HexCell) : Bool :=
  decide (∀ i j : Fin 8, i ≠ j → h i ≠ h j) &&
    hexFaces.all (fun f => decide (faceOutward h f)) &&
    decide (0 < hexVolume h)

/-- Is a rational an integer? -/
def isIntQ (q : ℚ) : Bool := q.den = 1

/-- The points of the map lying on an integer grid corner in all three
parametric coordinates (the loci where hex corners are reconstructed). -/
def isoPoints (uvw : UVWMap) : List Vec3 :=
  (uvw.flatMap fun u => [u 0, u 1, u 2, u 3]).filter fun p =>
    isIntQ (p 0) && isIntQ (p 1) && isIntQ (p 2)

/-- Link consecutive groups of 8 candidate corners into candidate cells
(the lattice-tracing of the spec, modelled as an enumeration of candidate
8-tuples; incomplete trailing groups are dropped, as a candidate missing a
corner is). -/
def chunk8 : List Vec3 → List HexCell
  | a :: b :: c :: d :: e :: f :: g :: h :: rest =>
      ![a, b, c, d, e, f, g, h] :: chunk8 rest
  | _ => []

/-- The extraction stage as the driver invokes it: enumerate candidate
cells, emit only the valid ones (extraction favors validity over
completeness: unresolved candidates are dropped, never emitted
malformed). -/
def extract_isolines (_tm : TetMesh) (uvw : UVWMap) : List HexCell :=
  (chunk8 (isoPoints uvw)).filter hexValid

/-! ## The nullable isoline intersection of extraction.py

Embedded from the driver's captured output: the notebook records
`extraction.py:95: FutureWarning: comparison to None will result in an
elementwise object comparison in the future.  if iso_pt != None:` — the
candidate isoline intersection is a nullable numpy value and its presence is
tested by comparing it to the `None` sentinel. -/

/-- The value flowing through the extraction loop: the `None` sentinel
("no intersection") or a numpy point array. -/
inductive PyVal : Type where
  | pynone : PyVal
  | arr : List ℚ → PyVal
deriving DecidableEq

/-- The guard of extraction.py line 95, `if iso_pt != None:`, under the
semantics numpy applies at the recorded run (scalar comparison of the value
against the sentinel). -/
def isoPtGuard (iso_pt : PyVal) : Bool := decide (iso_pt ≠ PyVal.pynone)

/-- Result of a numpy `!=` comparison: a plain boolean, or an elementwise
boolean array. -/
inductive NpResult : Type where
  | scalar : Bool → NpResult
  | boolArr : List Bool → NpResult
deriving DecidableEq

/-- The elementwise semantics of `iso_pt != None` that the recorded
FutureWarning announces: against an array the comparison is elementwise
(every component differs from None), against None it is scalar False. -/
def npNeNoneFuture : PyVal → NpResult
  | PyVal.pynone => NpResult.scalar false
  | PyVal.arr xs => NpResult.boolArr (xs.map fun _ => true)

/-- Python truthiness of a numpy comparison result: a boolean array is
ambiguous (numpy raises) unless it has exactly one element. -/
def npTruth : NpResult → Except String Bool
  | NpResult.scalar b => Except.ok b
  | NpResult.boolArr [b] => Except.ok b
  | NpResult.boolArr _ => Except.error "ambiguous truth value"

/-- The explicit optional/result representation with a defined
"no intersection" case that the spec's design note calls for. -/
def isoPtSpecGuard (p : Option Vec3) : Bool := p.isSome

/-! ## The machina object and the notebook driver

Embedded from src/hexmachina/Notebook.ipynb: a single machina object
accumulates the artifacts as attributes set in sequence by the driver cells
(`HexMachina(tri_mesh, max_vol = 1)`, `compute_dual`, `init_framefield`,
`optimize_framefield`, `singular_vertices = singular_graph(machina)[2]`,
`parametrization.parametrize_volume(machina, singular_vertices, 3.0)`,
`extraction.extract_isolines(machina, uvw_map)`).  `Option` marks an
attribute not yet computed; a stage demands its inputs and errors when an
upstream artifact is missing.  The external collaborators (the
tetrahedralization service, the surface normal/curvature provider feeding
the boundary alignment, and the quasi-Newton direction oracle) and the
solver tolerances are bundled in a configuration record. -/

/-- The driver's machina object. -/
structure MState where
  tet_mesh : Option TetMesh
  dual : Option (List (ℕ × ℕ))
  frames : Option Frames
  frames_opt : Option (Frames × Bool)
  sing : Option SingOutput
  uvw : Option (UVWMap × Bool)
  hexes : Option (List HexCell)

/-- The machina object before any stage has run. -/
def MState.empty : MState := ⟨none, none, none, none, none, none, none⟩

/-- External collaborators and solver configuration of one run. -/
structure Config where
  tetra : TriMesh → ℚ → TetMesh
  attr : ℕ → M3
  dir : Frames → ℕ → Vec3
  tolF : ℚ
  capF : ℕ
  tolP : ℚ
  capP : ℕ

/-- Driver cell 3: build the tet mesh from the surface and max-volume
parameter. -/
def stage_tetmesh (cfg : Config) (tri : TriMesh) (mv : ℚ) (s : MState) :
    Except String MState :=
  Except.ok { s with tet_mesh := some (cfg.tetra tri mv) }

/-- Driver cell 3: `machina.compute_dual()`. -/
def stage_dual (s : MState) : Except String MState :=
  match s.tet_mesh with
  | none => Except.error "compute_dual: tet mesh missing"
  | some tm => Except.ok { s with dual := some (dualFacePairs tm) }

/-- Driver cell 5: `machina.init_framefield()`. -/
def stage_init_ff (cfg : Config) (s : MState) : Except String MState :=
  match s.tet_mesh, s.dual with
  | some tm, some _ => Except.ok { s with frames := some (init_framefield tm cfg.attr) }
  | _, _ => Except.error "init_framefield: tet mesh or dual missing"

/-- Driver cell 5: `machina.optimize_framefield()`. -/
def stage_opt_ff (cfg : Config) (s : MState) : Except String MState :=
  match s.tet_mesh, s.frames with
  | some tm, some F =>
      Except.ok { s with frames_opt := some (optimize_framefield tm cfg.dir cfg.tolF cfg.capF F) }
  | _, _ => Except.error "optimize_framefield: tet mesh or frames missing"

/-- Driver cell 7: `singular_vertices = singular_graph(machina)[2]` — the
full output triple is stored on the machina object. -/
def stage_singular (s : MState) : Except String MState :=
  match s.tet_mesh, s.dual, s.frames_opt with
  | some tm, some d, some Fo =>
      Except.ok { s with sing := some (singular_graph tm (computeMatchings d Fo.1)) }
  | _, _, _ => Except.error "singular_graph: upstream artifact missing"

/-- Driver cell 9: `parametrize_volume(machina, singular_vertices, 3.0)` —
the stage receives the stored singular-graph output and the explicitly
passed singular-vertex list (component 2 of the triple). -/
def stage_param (cfg : Config) (scale : ℚ) (s : MState) : Except String MState :=
  match s.tet_mesh, s.frames_opt, s.sing with
  | some tm, some Fo, some sg =>
      Except.ok
        { s with uvw := some (parametrize_volume tm Fo.1 sg sg.vertices scale cfg.tolP cfg.capP) }
  | _, _, _ => Except.error "parametrize_volume: upstream artifact missing"

/-- Driver cell 11: `extraction.extract_isolines(machina, uvw_map)`. -/
def stage_extract (s : MState) : Except String MState :=
  match s.tet_mesh, s.uvw with
  | some tm, some u => Except.ok { s with hexes := some (extract_isolines tm u.1) }
  | _, _ => Except.error "extract_isolines: upstream artifact missing"

/-! The artifacts of one run, named once so the intermediate driver states
can be written down explicitly. -/

/-- Artifact of stage 1: the tetrahedral mesh. -/
def aTm (cfg : Config) (tri : TriMesh) (mv : ℚ) : TetMesh := cfg.tetra tri mv

/-- Artifact of stage 2: the dual adjacency. -/
def aDual (cfg : Config) (tri : TriMesh) (mv : ℚ) : List (ℕ × ℕ) :=
  dualFacePairs (aTm cfg tri mv)

/-- Artifact of stage 3: the initial frame field. -/
def aF0 (cfg : Config) (tri : TriMesh) (mv : ℚ) : Frames :=
  init_framefield (aTm cfg tri mv) cfg.attr

/-- Artifact of stage 4: the optimized frame field with its convergence
flag. -/
def aFopt (cfg : Config) (tri : TriMesh) (mv : ℚ) : Frames × Bool :=
  optimize_framefield (aTm cfg tri mv) cfg.dir cfg.tolF cfg.capF (aF0 cfg tri mv)

/-- Artifact of stage 5: the singular graph extracted from the optimized
field's recomputed matchings. -/
def aSing (cfg : Config) (tri : TriMesh) (mv : ℚ) : SingOutput :=
  singular_graph (aTm cfg tri mv) (computeMatchings (aDual cfg tri mv) (aFopt cfg tri mv).1)

/-- Artifact of stage 6: the volume parametrization with its convergence
flag. -/
def aUVW (cfg : Config) (tri : TriMesh) (mv scale : ℚ) : UVWMap × Bool :=
  parametrize_volume (aTm cfg tri mv) (aFopt cfg tri mv).1 (aSing cfg tri mv)
    (aSing cfg tri mv).vertices scale cfg.tolP cfg.capP

/-- Artifact of stage 7: the extracted hex cells. -/
def aHex (cfg : Config) (tri : TriMesh) (mv scale : ℚ) : List HexCell :=
  extract_isolines (aTm cfg tri mv) (aUVW cfg tri mv scale).1

/-- The machina object after stage `k` of the canonical run (`pd0` …
`pd7`). -/
def pd0 : MState := MState.empty

def pd1 (cfg : Config) (tri : TriMesh) (mv : ℚ) : MState :=
  { pd0 with tet_mesh := some (aTm cfg tri mv) }

def pd2 (cfg : Config) (tri : TriMesh) (mv : ℚ) : MState :=
  { pd1 cfg tri mv with dual := some (aDual cfg tri mv) }

def pd3 (cfg : Config) (tri : TriMesh) (mv : ℚ) : MState :=
  { pd2 cfg tri mv with frames := some (aF0 cfg tri mv) }

def pd4 (cfg : Config) (tri : TriMesh) (mv : ℚ) : MState :=
  { pd3 cfg tri mv with frames_opt := some (aFopt cfg tri mv) }

def pd5 (cfg : Config) (tri : TriMesh) (mv : ℚ) : MState :=
  { pd4 cfg tri mv with sing := some (aSing cfg tri mv) }

def pd6 (cfg : Config) (tri : TriMesh) (mv scale : ℚ) : MState :=
  { pd5 cfg tri mv with uvw := some (aUVW cfg tri mv scale) }

def pd7 (cfg : Config) (tri : TriMesh) (mv scale : ℚ) : MState :=
  { pd6 cfg tri mv scale with hexes := some (aHex cfg tri mv scale) }

/-- The notebook driver, cells 3–11 in order, with the notebook's constants
`max_vol = 1` and grid scale `3.0`. -/
def driverRun (cfg : Config) (tri : TriMesh) : Except String MState :=
  stage_tetmesh cfg tri 1 MState.empty >>= stage_dual >>= stage_init_ff cfg >>=
    stage_opt_ff cfg >>= stage_singular >>= stage_param cfg 3 >>= stage_extract

/-! ## The pipeline as a step relation

For the determinism claim the pipeline is also embedded as a small-step
relation: each stage may fire only when every artifact it consumes is
present and its own artifact has not been produced yet. -/

/-- One stage firing on the machina object. -/
inductive PStep (cfg : Config) (tri : TriMesh) (mv scale : ℚ) : MState → MState → Prop where
  | tetmesh : ∀ s : MState, s.tet_mesh = none →
      PStep cfg tri mv scale s { s with tet_mesh := some (cfg.tetra tri mv) }
  | dual : ∀ (s : MState) (tm : TetMesh), s.tet_mesh = some tm → s.dual = none →
      PStep cfg tri mv scale s { s with dual := some (dualFacePairs tm) }
  | init_ff : ∀ (s : MState) (tm : TetMesh) (d : List (ℕ × ℕ)),
      s.tet_mesh = some tm → s.dual = some d → s.frames = none →
      PStep cfg tri mv scale s { s with frames := some (init_framefield tm cfg.attr) }
  | opt_ff : ∀ (s : MState) (tm : TetMesh) (F : Frames),
      s.tet_mesh = some tm → s.frames = some F → s.frames_opt = none →
      PStep cfg tri mv scale s
        { s with frames_opt := some (optimize_framefield tm cfg.dir cfg.tolF cfg.capF F) }
  | singular : ∀ (s : MState) (tm : TetMesh) (d : List (ℕ × ℕ)) (Fo : Frames × Bool),
      s.tet_mesh = some tm → s.dual = some d → s.frames_opt = some Fo → s.sing = none →
      PStep cfg tri mv scale s
        { s with sing := some (singular_graph tm (computeMatchings d Fo.1)) }
  | param : ∀ (s : MState) (tm : TetMesh) (Fo : Frames × Bool) (sg : SingOutput),
      s.tet_mesh = some tm → s.frames_opt = some Fo → s.sing = some sg → s.uvw = none →
      PStep cfg tri mv scale s
        { s with uvw := some (parametrize_volume tm Fo.1 sg sg.vertices scale cfg.tolP cfg.capP) }
  | extract : ∀ (s : MState) (tm : TetMesh) (u : UVWMap × Bool),
      s.tet_mesh = some tm → s.uvw = some u → s.hexes = none →
      PStep cfg tri mv scale s { s with hexes := some (extract_isolines tm u.1) }

/-- No stage can fire. -/
def PTerminal (cfg : Config) (tri : TriMesh) (mv scale : ℚ) (s : MState) : Prop :=
  ∀ t : MState, ¬ PStep cfg tri mv scale s t

/-- The canonical chain of machina states, indexed 0–7. -/
def pdIdx (cfg : Config) (tri : TriMesh) (mv scale : ℚ) : ℕ → MState
  | 0 => pd0
  | 1 => pd1 cfg tri mv
  | 2 => pd2 cfg tri mv
  | 3 => pd3 cfg tri mv
  | 4 => pd4 cfg tri mv
  | 5 => pd5 cfg tri mv
  | 6 => pd6 cfg tri mv scale
  | _ => pd7 cfg tri mv scale

theorem pstep_pd0 (cfg : Config) (tri : TriMesh) (mv scale : ℚ) (t : MState)
    (h : PStep cfg tri mv scale pd0 t) : t = pd1 cfg tri mv := by
  cases h <;> simp_all [pd0, pd1, MState.empty, aTm]

theorem pstep_pd1 (cfg : Config) (tri : TriMesh) (mv scale : ℚ) (t : MState)
    (h : PStep cfg tri mv scale (pd1 cfg tri mv) t) : t = pd2 cfg tri mv := by
  cases h <;> simp_all [pd0, pd1, pd2, MState.empty, aTm, aDual]

theorem pstep_pd2 (cfg : Config) (tri : TriMesh) (mv scale : ℚ) (t : MState)
    (h : PStep cfg tri mv scale (pd2 cfg tri mv) t) : t = pd3 cfg tri mv := by
  cases h <;> simp_all [pd0, pd1, pd2, pd3, MState.empty, aTm, aDual, aF0]

theorem pstep_pd3 (cfg : Config) (tri : TriMesh) (mv scale : ℚ) (t : MState)
    (h : PStep cfg tri mv scale (pd3 cfg tri mv) t) : t = pd4 cfg tri mv := by
  cases h <;> simp_all [pd0, pd1, pd2, pd3, pd4, MState.empty, aTm, aDual, aF0, aFopt]

theorem pstep_pd4 (cfg : Config) (tri : TriMesh) (mv scale : ℚ) (t : MState)
    (h : PStep cfg tri mv scale (pd4 cfg tri mv) t) : t = pd5 cfg tri mv := by
  cases h <;> simp_all [pd0, pd1, pd2, pd3, pd4, pd5, MState.empty, aTm, aDual, aF0, aFopt, aSing]

theorem pstep_pd5 (cfg : Config) (tri : TriMesh) (mv scale : ℚ) (t : MState)
    (h : PStep cfg tri mv scale (pd5 cfg tri mv) t) : t = pd6 cfg tri mv scale := by
  cases h <;>
    simp_all [pd0, pd1, pd2, pd3, pd4, pd5, pd6, MState.empty, aTm, aDual, aF0, aFopt,
      aSing, aUVW]

theorem pstep_pd6 (cfg : Config) (tri : TriMesh) (mv scale : ℚ) (t : MState)
    (h : PStep cfg tri mv scale (pd6 cfg tri mv scale) t) : t = pd7 cfg tri mv scale := by
  cases h <;>
    simp_all [pd0, pd1, pd2, pd3, pd4, pd5, pd6, pd7, MState.empty, aTm, aDual, aF0, aFopt,
      aSing, aUVW, aHex]

theorem pterminal_pd7 (cfg : Config) (tri : TriMesh) (mv scale : ℚ) :
    PTerminal cfg tri mv scale (pd7 cfg tri mv scale) := by
  intro t h
  cases h <;>
    simp_all [pd0, pd1, pd2, pd3, pd4, pd5, pd6, pd7, MState.empty, aTm, aDual, aF0, aFopt,
      aSing, aUVW, aHex]

theorem pstep_chain (cfg : Config) (tri : TriMesh) (mv scale : ℚ) :
    ∀ k < 7, PStep cfg tri mv scale (pdIdx cfg tri mv scale k) (pdIdx cfg tri mv scale (k + 1)) := by
  intro k hk
  interval_cases k
  · exact PStep.tetmesh pd0 rfl
  · exact PStep.dual (pd1 cfg tri mv) (aTm cfg tri mv) rfl rfl
  · exact PStep.init_ff (pd2 cfg tri mv) (aTm cfg tri mv) (aDual cfg tri mv) rfl rfl rfl
  · exact PStep.opt_ff (pd3 cfg tri mv) (aTm cfg tri mv) (aF0 cfg tri mv) rfl rfl rfl
  · exact PStep.singular (pd4 cfg tri mv) (aTm cfg tri mv) (aDual cfg tri mv)
      (aFopt cfg tri mv) rfl rfl rfl rfl
  · exact PStep.param (pd5 cfg tri mv) (aTm cfg tri mv) (aFopt cfg tri mv)
      (aSing cfg tri mv) rfl rfl rfl rfl
  · exact PStep.extract (pd6 cfg tri mv scale) (aTm cfg tri mv) (aUVW cfg tri mv scale)
      rfl rfl rfl

theorem pstep_unique (cfg : Config) (tri : TriMesh) (mv scale : ℚ) :
    ∀ k < 7, ∀ t : MState, PStep cfg tri mv scale (pdIdx cfg tri mv scale k) t →
      t = pdIdx cfg tri mv scale (k + 1) := by
  intro k hk t h
  interval_cases k
  · exact pstep_pd0 cfg tri mv scale t h
  · exact pstep_pd1 cfg tri mv scale t h
  · exact pstep_pd2 cfg tri mv scale t h
  · exact pstep_pd3 cfg tri mv scale t h
  · exact pstep_pd4 cfg tri mv scale t h
  · exact pstep_pd5 cfg tri mv scale t h
  · exact pstep_pd6 cfg tri mv scale t h

theorem preach (cfg : Config) (tri : TriMesh) (mv scale : ℚ) (s : MState)
    (h : Relation.ReflTransGen (PStep cfg tri mv scale) pd0 s) :
    ∃ k, k ≤ 7 ∧ s = pdIdx cfg tri mv scale k := by
  induction h with
  | refl => exact ⟨0, by norm_num, rfl⟩
  | tail hab hbc ih =>
      obtain ⟨k, hk, rfl⟩ := ih
      by_cases hlt : k < 7
      · exact ⟨k + 1, by omega, (pstep_unique cfg tri mv scale k hlt _ hbc).symm ▸ rfl⟩
      · have hk7 : k = 7 := by omega
        subst hk7
        exact absurd hbc (pterminal_pd7 cfg tri mv scale _)

theorem preach_terminal (cfg : Config) (tri : TriMesh) (mv scale : ℚ) (s : MState)
    (h : Relation.ReflTransGen (PStep cfg tri mv scale) pd0 s)
    (ht : PTerminal cfg tri mv scale s) : s = pd7 cfg tri mv scale := by
  obtain ⟨k, hk, rfl⟩ := preach cfg tri mv scale s h
  by_cases hlt : k < 7
  · exact absurd (pstep_chain cfg tri mv scale k hlt) (ht _)
  · have hk7 : k = 7 := by omega
    subst hk7
    rfl

theorem preach_pd7 (cfg : Config) (tri : TriMesh) (mv scale : ℚ) :
    Relation.ReflTransGen (PStep cfg tri mv scale) pd0 (pd7 cfg tri mv scale) := by
  have h0 := pstep_chain cfg tri mv scale 0 (by norm_num)
  have h1 := pstep_chain cfg tri mv scale 1 (by norm_num)
  have h2 := pstep_chain cfg tri mv scale 2 (by norm_num)
  have h3 := pstep_chain cfg tri mv scale 3 (by norm_num)
  have h4 := pstep_chain cfg tri mv scale 4 (by norm_num)
  have h5 := pstep_chain cfg tri mv scale 5 (by norm_num)
  have h6 := pstep_chain cfg tri mv scale 6 (by norm_num)
  exact Relation.ReflTransGen.tail
    (Relation.ReflTransGen.tail
      (Relation.ReflTransGen.tail
        (Relation.ReflTransGen.tail
          (Relation.ReflTransGen.tail
            (Relation.ReflTransGen.tail (Relation.ReflTransGen.single h0) h1) h2) h3) h4) h5) h6

theorem ffIter_shift (dfPairs : List (ℕ × ℕ)) (dir : Frames → ℕ → Vec3) (k : ℕ) (F : Frames) :
    ffIter dfPairs dir k (ffStep dfPairs dir F) = ffIter dfPairs dir (k + 1) F := by
  induction k with
  | zero => rfl
  | succ k ih =>
      show ffStep dfPairs dir (ffIter dfPairs dir k (ffStep dfPairs dir F)) = _
      rw [ih]
      rfl

theorem cgSolve_unconverged {X : Type} (step : X → X) (res : X → ℚ) (tol : ℚ) :
    ∀ (cap : ℕ) (x : X), (∀ j < cap, tol ≤ res (cgIterate step j x)) →
      cgSolve step res tol cap x = (cgIterate step cap x, false) := by
  intro cap
  induction cap with
  | zero => intro x _; rfl
  | succ c ih =>
      intro x h
      have h0 : tol ≤ res x := h 0 (Nat.succ_pos c)
      show (if res x < tol then (x, true) else cgSolve step res tol c (step x)) = _
      rw [if_neg (not_lt.mpr h0)]
      exact ih (step x) fun j hj => h (j + 1) (Nat.succ_lt_succ hj)

theorem ffSolve_unconverged (dfPairs : List (ℕ × ℕ)) (dir : Frames → ℕ → Vec3) (tol : ℚ) :
    ∀ (cap : ℕ) (F : Frames),
      (∀ j < cap, tol ≤ energy dfPairs (ffIter dfPairs dir j F) -
        energy dfPairs (ffStep dfPairs dir (ffIter dfPairs dir j F))) →
      ffSolve dfPairs dir tol cap F = (ffIter dfPairs dir cap F, false) := by
  intro cap
  induction cap with
  | zero => intro F _; rfl
  | succ c ih =>
      intro F h
      have h0 : tol ≤ energy dfPairs F - energy dfPairs (ffStep dfPairs dir F) :=
        h 0 (Nat.succ_pos c)
      show (if energy dfPairs F - energy dfPairs (ffStep dfPairs dir F) < tol then _
        else ffSolve dfPairs dir tol c (ffStep dfPairs dir F)) = _
      rw [if_neg (not_lt.mpr h0)]
      have hs := ih (ffStep dfPairs dir F) fun j hj => by
        rw [ffIter_shift]
        exact h (j + 1) (Nat.succ_lt_succ hj)
      rw [hs, ffIter_shift]

/-! ## Claim theorems -/

/-- C1: the pipeline computes its stages in strict forward order on every
run.  The driver chain applies tet-mesh construction (with dual adjacency)
first, then frame-field initialization and optimization, then singular-graph
extraction from the optimized field, then volume parametrization, then hex
extraction on the parametrization; each stage succeeds exactly on the state
left by its predecessor, and before each stage fires every artifact of its
upstream stages is already present in the machina state. -/
theorem pipeline_strict_forward_order (cfg : Config) (tri : TriMesh) :
    stage_tetmesh cfg tri 1 MState.empty = Except.ok (pd1 cfg tri 1) ∧
    stage_dual (pd1 cfg tri 1) = Except.ok (pd2 cfg tri 1) ∧
    stage_init_ff cfg (pd2 cfg tri 1) = Except.ok (pd3 cfg tri 1) ∧
    stage_opt_ff cfg (pd3 cfg tri 1) = Except.ok (pd4 cfg tri 1) ∧
    stage_singular (pd4 cfg tri 1) = Except.ok (pd5 cfg tri 1) ∧
    stage_param cfg 3 (pd5 cfg tri 1) = Except.ok (pd6 cfg tri 1 3) ∧
    stage_extract (pd6 cfg tri 1 3) = Except.ok (pd7 cfg tri 1 3) ∧
    driverRun cfg tri = Except.ok (pd7 cfg tri 1 3) ∧
    ((pd1 cfg tri 1).tet_mesh.isSome = true ∧
      (pd2 cfg tri 1).tet_mesh.isSome = true ∧ (pd2 cfg tri 1).dual.isSome = true ∧
      (pd3 cfg tri 1).tet_mesh.isSome = true ∧ (pd3 cfg tri 1).dual.isSome = true ∧
      (pd3 cfg tri 1).frames.isSome = true ∧
      (pd4 cfg tri 1).tet_mesh.isSome = true ∧ (pd4 cfg tri 1).dual.isSome = true ∧
      (pd4 cfg tri 1).frames_opt.isSome = true ∧
      (pd5 cfg tri 1).tet_mesh.isSome = true ∧ (pd5 cfg tri 1).frames_opt.isSome = true ∧
      (pd5 cfg tri 1).sing.isSome = true ∧
      (pd6 cfg tri 1 3).tet_mesh.isSome = true ∧ (pd6 cfg tri 1 3).uvw.isSome = true) := by
  refine ⟨rfl, rfl, rfl, rfl, rfl, rfl, rfl, rfl, ?_⟩
  refine ⟨rfl, rfl, rfl, rfl, rfl, rfl, rfl, rfl, rfl, rfl, rfl, rfl, rfl, rfl⟩

/-- C2: the full singularity-extraction output — the singular-edge set, the
per-edge index list, and the singular-vertex set — is stored on the machina
object exactly as `singular_graph` produced it, and the parametrization
stage is invoked with that stored triple verbatim plus the separately passed
vertex component (`singular_graph(machina)[2]`), on every run of the
pipeline. -/
theorem singular_output_passed_verbatim (cfg : Config) (tri : TriMesh) :
    (pd5 cfg tri 1).sing = some (aSing cfg tri 1) ∧
    stage_param cfg 3 (pd5 cfg tri 1) = Except.ok (pd6 cfg tri 1 3) ∧
    (pd6 cfg tri 1 3).uvw =
      some (parametrize_volume (aTm cfg tri 1) (aFopt cfg tri 1).1 (aSing cfg tri 1)
        (aSing cfg tri 1).vertices 3 cfg.tolP cfg.capP) ∧
    driverRun cfg tri = Except.ok (pd7 cfg tri 1 3) :=
  ⟨rfl, rfl, rfl, rfl⟩

/-- C3: no stage mutates a predecessor stage's artifact in place: in the
final machina state of every driver run, each artifact still equals exactly
the value its own stage produced — the tet mesh, the dual adjacency, the
initial frames, the optimized frames, the singular graph and the UVW map are
all unchanged by every downstream stage. -/
theorem no_retro_mutation (cfg : Config) (tri : TriMesh) :
    (pd7 cfg tri 1 3).tet_mesh = some (aTm cfg tri 1) ∧
    (pd7 cfg tri 1 3).dual = some (aDual cfg tri 1) ∧
    (pd7 cfg tri 1 3).frames = some (aF0 cfg tri 1) ∧
    (pd7 cfg tri 1 3).frames_opt = some (aFopt cfg tri 1) ∧
    (pd7 cfg tri 1 3).sing = some (aSing cfg tri 1) ∧
    (pd7 cfg tri 1 3).uvw = some (aUVW cfg tri 1 3) ∧
    driverRun cfg tri = Except.ok (pd7 cfg tri 1 3) :=
  ⟨rfl, rfl, rfl, rfl, rfl, rfl, rfl⟩

/-- C5: the pipeline is deterministic — a pure function of the input
surface, the maximum-tet-volume value, the grid scale, and the solver
configuration (collaborator functions and tolerances).  Any two complete
executions of the staged pipeline from the empty machina state end in the
same state, and that state carries the hex-cell list computed from those
inputs alone. -/
theorem pipeline_deterministic (cfg : Config) (tri : TriMesh) (mv scale : ℚ)
    (s s' : MState)
    (h1 : Relation.ReflTransGen (PStep cfg tri mv scale) MState.empty s)
    (h2 : PTerminal cfg tri mv scale s)
    (h3 : Relation.ReflTransGen (PStep cfg tri mv scale) MState.empty s')
    (h4 : PTerminal cfg tri mv scale s') :
    s = s' ∧ s.hexes = some (aHex cfg tri mv scale) := by
  rw [preach_terminal cfg tri mv scale s h1 h2, preach_terminal cfg tri mv scale s' h3 h4]
  exact ⟨rfl, rfl⟩

/-- Trivial collaborator configuration used by the concrete witnesses. -/
def cfgW : Config :=
  ⟨fun _ _ => ⟨[], []⟩, fun _ => 1, fun _ _ _ => 0, 1, 1, 1, 1⟩

/-- Empty input surface used by the concrete witnesses. -/
def triW : TriMesh := ⟨[], []⟩

/-- Witness for C5: the canonical run is a complete execution, so the
determinism theorem applies to it on a concrete configuration. -/
theorem pipeline_deterministic_witness :
    Relation.ReflTransGen (PStep cfgW triW 1 3) MState.empty (pd7 cfgW triW 1 3) ∧
    PTerminal cfgW triW 1 3 (pd7 cfgW triW 1 3) ∧
    (pd7 cfgW triW 1 3 = pd7 cfgW triW 1 3 ∧
      (pd7 cfgW triW 1 3).hexes = some (aHex cfgW triW 1 3)) :=
  ⟨preach_pd7 cfgW triW 1 3, pterminal_pd7 cfgW triW 1 3,
    pipeline_deterministic cfgW triW 1 3 (pd7 cfgW triW 1 3) (pd7 cfgW triW 1 3)
      (preach_pd7 cfgW triW 1 3) (pterminal_pd7 cfgW triW 1 3)
      (preach_pd7 cfgW triW 1 3) (pterminal_pd7 cfgW triW 1 3)⟩

/-- C6: during frame-field optimization the global smoothness energy is
non-increasing across successive outer iterations, for every tet mesh,
every search-direction oracle, and every starting frame set — a failed
line search retains the previous frame set, so the energy never
increases. -/
theorem energy_nonincreasing (tm : TetMesh) (dir : Frames → ℕ → Vec3) (F0 : Frames) (k : ℕ) :
    energy (dualFacePairs tm) (ffIter (dualFacePairs tm) dir (k + 1) F0) ≤
      energy (dualFacePairs tm) (ffIter (dualFacePairs tm) dir k F0) :=
  energy_ffStep_le (dualFacePairs tm) dir (ffIter (dualFacePairs tm) dir k F0)

/-- C7: for every interior mesh edge, singularity classification composes
the consecutive dual-face matchings around the edge's cyclic tet sequence
and classifies the edge as singular exactly when that composed matching is
not the identity of the cube-rotation group. -/
theorem singular_iff_holonomy (tm : TetMesh) (dfs : List DualFace) (e : ℕ × ℕ)
    (h1 : e ∈ meshEdges tm) (_h2 : isBoundaryEdge tm e = false) :
    e ∈ (singular_graph tm dfs).edges ↔
      (edgeMatchings dfs (edgeTets tm e)).prod ≠ 1 := by
  rw [singular_graph, List.mem_filter, isSingularEdge, composeMatchings_eq_prod]
  simp [h1]

/-- Interior-edge witness mesh for C7: three tets wrapped around the edge
(0,1), every face containing that edge shared by two of them. -/
def tmW7 : TetMesh := ⟨[], [(0, 1, 2, 3), (0, 1, 3, 4), (0, 1, 4, 2)]⟩

/-- Witness for C7 at the interior edge (0,1) of the three-tet mesh, with
all matchings defaulting to the identity. -/
theorem singular_iff_holonomy_witness :
    ((0, 1) ∈ meshEdges tmW7) ∧ isBoundaryEdge tmW7 (0, 1) = false ∧
      ((0, 1) ∈ (singular_graph tmW7 []).edges ↔
        (edgeMatchings [] (edgeTets tmW7 (0, 1))).prod ≠ 1) :=
  ⟨by decide, by decide, singular_iff_holonomy tmW7 [] (0, 1) (by decide) (by decide)⟩

/-- C8: for every tetrahedron, the stored frame is an orthonormal rotation
(columns unit length and mutually perpendicular, `Fᵀ * F = 1`) at every
point of the frame-field stage — after initialization, after each outer
optimization iteration, and in the frame set the optimizer stage returns —
provided the externally supplied boundary alignments are orthonormal. -/
theorem frames_orthonormal (tm : TetMesh) (attr : ℕ → M3) (dir : Frames → ℕ → Vec3)
    (tol : ℚ) (cap k t : ℕ) (hattr : ∀ i, IsOrthonormal (attr i)) :
    IsOrthonormal (frameAt (init_framefield tm attr) t) ∧
    IsOrthonormal (frameAt (ffIter (dualFacePairs tm) dir k (init_framefield tm attr)) t) ∧
    IsOrthonormal (frameAt (optimize_framefield tm dir tol cap (init_framefield tm attr)).1 t) := by
  have h0 := init_framefield_allOrthonormal tm attr hattr
  exact ⟨h0 t, ffIter_allOrthonormal dir h0 k t,
    ffSolve_allOrthonormal dir tol cap (init_framefield tm attr) h0 t⟩

/-- Witness for C8 on the three-tet mesh with identity boundary
alignments. -/
theorem frames_orthonormal_witness :
    (∀ i : ℕ, IsOrthonormal ((fun _ => (1 : M3)) i)) ∧
      (IsOrthonormal (frameAt (init_framefield tmW7 fun _ => 1) 0) ∧
        IsOrthonormal
          (frameAt (ffIter (dualFacePairs tmW7) (fun _ _ _ => 0) 1
            (init_framefield tmW7 fun _ => 1)) 0) ∧
        IsOrthonormal
          (frameAt (optimize_framefield tmW7 (fun _ _ _ => 0) 1 1
            (init_framefield tmW7 fun _ => 1)).1 0)) :=
  ⟨fun _ => isOrthonormal_one,
    frames_orthonormal tmW7 (fun _ => 1) (fun _ _ _ => 0) 1 1 1 0 fun _ => isOrthonormal_one⟩

/-- C9: when the frame-field optimizer or the parametrization solver
exhausts its iteration budget without reaching its tolerance, the stage
returns its best-effort artifact (the last iterate) explicitly tagged
unconverged (`false`), never promoting the partial result to a converged
one; and the parametrization stage is exactly such a guarded iterative
solve. -/
theorem solver_reports_nonconvergence {X : Type} (step : X → X) (res : X → ℚ)
    (tol : ℚ) (cap : ℕ) (x0 : X) (tm : TetMesh) (F F0 : Frames) (sg : SingOutput)
    (sv : List ℕ) (scale tolP : ℚ) (capP : ℕ) (dir : Frames → ℕ → Vec3)
    (tolF : ℚ) (capF : ℕ)
    (hcg : ∀ j < cap, tol ≤ res (cgIterate step j x0))
    (hff : ∀ j < capF,
      tolF ≤ energy (dualFacePairs tm) (ffIter (dualFacePairs tm) dir j F0) -
        energy (dualFacePairs tm) (ffStep (dualFacePairs tm) dir
          (ffIter (dualFacePairs tm) dir j F0))) :
    cgSolve step res tol cap x0 = (cgIterate step cap x0, false) ∧
    optimize_framefield tm dir tolF capF F0 = (ffIter (dualFacePairs tm) dir capF F0, false) ∧
    parametrize_volume tm F sg sv scale tolP capP =
      cgSolve (pStep tm F scale (sg.vertices ++ sv)) (pRes F scale) tolP capP (initUVW tm) :=
  ⟨cgSolve_unconverged step res tol cap x0 hcg,
    ffSolve_unconverged (dualFacePairs tm) dir tolF capF F0 hff, rfl⟩

/-- Witness for C9: a residual pinned at 1 against tolerance 1 never
converges, and a zero energy tolerance never lets the optimizer stop
early (the energy decrease of a guarded step is never negative). -/
theorem solver_reports_nonconvergence_witness :
    (∀ j < 1, (1 : ℚ) ≤ (fun _ : ℚ => (1 : ℚ)) (cgIterate id j 0)) ∧
    (∀ j < 1,
      (0 : ℚ) ≤ energy (dualFacePairs tmW7) (ffIter (dualFacePairs tmW7) (fun _ _ _ => 0) j []) -
        energy (dualFacePairs tmW7) (ffStep (dualFacePairs tmW7) (fun _ _ _ => 0)
          (ffIter (dualFacePairs tmW7) (fun _ _ _ => 0) j []))) ∧
    (cgSolve id (fun _ : ℚ => (1 : ℚ)) 1 1 0 = (cgIterate id 1 0, false) ∧
      optimize_framefield tmW7 (fun _ _ _ => 0) 0 1 [] =
        (ffIter (dualFacePairs tmW7) (fun _ _ _ => 0) 1 [], false) ∧
      parametrize_volume tmW7 [] ⟨[], [], []⟩ [] 3 1 1 =
        cgSolve (pStep tmW7 [] 3 ((⟨[], [], []⟩ : SingOutput).vertices ++ []))
          (pRes [] 3) 1 1 (initUVW tmW7)) :=
  ⟨fun _ _ => le_refl 1,
    fun _ _ => sub_nonneg.mpr (energy_ffStep_le _ _ _),
    solver_reports_nonconvergence id (fun _ : ℚ => (1 : ℚ)) 1 1 0 tmW7 [] []
      ⟨[], [], []⟩ [] 3 1 1 (fun _ _ _ => 0) 0 1
      (fun _ _ => le_refl 1)
      (fun _ _ => sub_nonneg.mpr (energy_ffStep_le _ _ _))⟩

/-- C4: every hex cell emitted by the extraction stage consists of 8
pairwise distinct ordered corner positions with 6 consistently
outward-oriented quadrilateral faces and strictly positive volume — the
emission filter drops every candidate violating this. -/
theorem emitted_hex_cells_valid (tm : TetMesh) (uvw : UVWMap) (h : HexCell)
    (hmem : h ∈ extract_isolines tm uvw) :
    (∀ i j : Fin 8, i ≠ j → h i ≠ h j) ∧ (∀ f ∈ hexFaces, faceOutward h f) ∧
      0 < hexVolume h := by
  have hv := (List.mem_filter.mp hmem).2
  rw [hexValid, Bool.and_eq_true, Bool.and_eq_true] at hv
  obtain ⟨⟨hd, hf⟩, hvol⟩ := hv
  refine ⟨of_decide_eq_true hd, ?_, of_decide_eq_true hvol⟩
  intro f hfm
  exact of_decide_eq_true (List.all_eq_true.mp hf f hfm)

/-- Witness parametrization for C4: two tets' corner values lying exactly on
the 8 integer grid corners of the unit cube. -/
def uvwW : UVWMap :=
  [![![0, 0, 0], ![1, 0, 0], ![0, 1, 0], ![1, 1, 0]],
   ![![0, 0, 1], ![1, 0, 1], ![0, 1, 1], ![1, 1, 1]]]

/-- The unit-cube hex cell the witness extraction emits. -/
def hW : HexCell :=
  ![![0, 0, 0], ![1, 0, 0], ![0, 1, 0], ![1, 1, 0],
    ![0, 0, 1], ![1, 0, 1], ![0, 1, 1], ![1, 1, 1]]

theorem hW_c0 : hW 0 = ![0, 0, 0] := rfl

theorem hW_c1 : hW 1 = ![1, 0, 0] := rfl

theorem hW_c2 : hW 2 = ![0, 1, 0] := rfl

theorem hW_c3 : hW 3 = ![1, 1, 0] := rfl

theorem hW_c4 : hW 4 = ![0, 0, 1] := rfl

theorem hW_c5 : hW 5 = ![1, 0, 1] := rfl

theorem hW_c6 : hW 6 = ![0, 1, 1] := rfl

theorem hW_c7 : hW 7 = ![1, 1, 1] := rfl

theorem hexCenter_hW_0 : hexCenter hW 0 = 1 / 2 := by
  norm_num [hexCenter, Fin.sum_univ_eight, hW_c0, hW_c1, hW_c2, hW_c3, hW_c4, hW_c5,
    hW_c6, hW_c7]

theorem hexCenter_hW_1 : hexCenter hW 1 = 1 / 2 := by
  norm_num [hexCenter, Fin.sum_univ_eight, hW_c0, hW_c1, hW_c2, hW_c3, hW_c4, hW_c5,
    hW_c6, hW_c7]

theorem hexCenter_hW_2 : hexCenter hW 2 = 1 / 2 := by
  norm_num [hexCenter, Fin.sum_univ_eight, hW_c0, hW_c1, hW_c2, hW_c3, hW_c4, hW_c5,
    hW_c6, hW_c7]

theorem hexValid_hW : hexValid hW = true := by
  rw [hexValid, Bool.and_eq_true, Bool.and_eq_true]
  refine ⟨⟨by decide, ?_⟩, ?_⟩
  · simp only [hexFaces, List.all_cons, List.all_nil, Bool.and_eq_true, decide_eq_true_eq]
    refine ⟨?_, ?_, ?_, ?_, ?_, ?_, trivial⟩ <;>
      norm_num [faceOutward, vdot, vcross, vsub, hexCenter_hW_0, hexCenter_hW_1,
        hexCenter_hW_2, hW_c0, hW_c1, hW_c2, hW_c3, hW_c4, hW_c5, hW_c6, hW_c7]
  · simp only [decide_eq_true_eq]
    norm_num [hexVolume, triple, vdot, vcross, vsub, hW_c0, hW_c1, hW_c2, hW_c3, hW_c4,
      hW_c5, hW_c6, hW_c7]

theorem hW_mem_extraction : hW ∈ extract_isolines tmW7 uvwW := by
  have hchunk : chunk8 (isoPoints uvwW) = [hW] := by decide
  rw [extract_isolines, hchunk]
  exact List.mem_filter.mpr ⟨List.mem_singleton.mpr rfl, hexValid_hW⟩

/-- Witness for C4: the unit cube emitted from the witness parametrization
satisfies all three validity properties. -/
theorem emitted_hex_cells_valid_witness :
    (hW ∈ extract_isolines tmW7 uvwW) ∧
      ((∀ i j : Fin 8, i ≠ j → hW i ≠ hW j) ∧ (∀ f ∈ hexFaces, faceOutward hW f) ∧
        0 < hexVolume hW) :=
  ⟨hW_mem_extraction, emitted_hex_cells_valid tmW7 uvwW hW hW_mem_extraction⟩

/-- C10 counterexample: extraction's presence test for a maybe-existing
isoline intersection is the nullable-sentinel comparison `iso_pt != None`
(extraction.py line 95, recorded verbatim by the FutureWarning in the
driver's output), not an explicit optional with a defined "no intersection"
case: under the elementwise comparison semantics the warning announces, the
test on a concrete present intersection point (the array [1, 2, 3]) is an
ambiguous boolean array — an error — rather than the defined boolean an
optional-type test yields. -/
theorem isoline_sentinel_counterexample :
    npTruth (npNeNoneFuture (PyVal.arr [1, 2, 3])) = Except.error "ambiguous truth value" ∧
    isoPtGuard (PyVal.arr [1, 2, 3]) = true ∧
    npTruth (npNeNoneFuture (PyVal.arr [1, 2, 3])) ≠
      Except.ok (isoPtGuard (PyVal.arr [1, 2, 3])) :=
  ⟨rfl, rfl, fun h => Except.noConfusion h⟩

/-- C10 amended: in isoline extraction the candidate intersection is a
nullable value whose absence case is the `None` sentinel, and the code
tests presence by the sentinel comparison `iso_pt != None`, which (under
the scalar semantics of the recorded run) holds exactly when the candidate
is not the sentinel. -/
theorem isoline_sentinel_comparison (p : PyVal) :
    isoPtGuard p = decide (p ≠ PyVal.pynone) ∧ (isoPtGuard p = true ↔ p ≠ PyVal.pynone) :=
  ⟨rfl, by rw [isoPtGuard]; exact decide_eq_true_iff⟩

end HexMachina
